import Mathlib

/-!
Shallow embedding of the IoT dashboard bridge (`streamlit_app.py`) and the
sensor simulators (`src/sensors.py`).

Conventions of the embedding:
* Python floats are modelled as rationals (`ℚ`).
* A `collections.deque` with `maxlen` is a `List` together with the bounded
  append operations `dequeAppend` (append at the right, discard from the
  left) and `dequeAppendLeft` (append at the left, discard from the right),
  exactly as the Python docs describe bounded deques.
* JSON values produced by `json.loads` are the inductive `PyVal`; a payload
  whose `bytes.decode("utf-8")` or `json.loads` raises is modelled as the
  `none` case of the `Option PyVal` input of `on_message` (the byte-level
  decoder itself is external library code).
* Python exceptions inside `on_message` are modelled with `Option` results
  of the individual fallible operations (`in` on a non-container raises
  `TypeError`, subscripting a non-dict by a string raises, `float(...)` of
  a non-convertible value raises, `.get` on a non-dict raises
  `AttributeError`); the surrounding `try/except` turns any of them into a
  `[parse-error]` debug entry.
* Debug-log strings (`json.dumps(show)` and the f-strings) are kept as
  structured `DebugEntry` values: the exact textual serialisation carries
  no information the properties refer to, while the structure (which entry
  is a parse error, which fields appear with which values) is preserved.
-/

/-- Python `collections.deque(maxlen := m).append v` on a deque holding
`xs` (oldest first): add `v` at the right, then discard from the left while the
length exceeds `m`. -/
def dequeAppend {α : Type} (m : Nat) (xs : List α) (v : α) : List α :=
  let ys := xs ++ [v]
  if m < ys.length then ys.drop (ys.length - m) else ys

/-- Python `collections.deque(maxlen := m).appendleft v` on a deque
holding `xs` (newest first): add `v` at the left, then discard from the right while the
length exceeds `m`. -/
def dequeAppendLeft {α : Type} (m : Nat) (xs : List α) (v : α) : List α :=
  let ys := v :: xs
  if m < ys.length then ys.take m else ys

/-- A Python value as produced by `json.loads` (plus `bool`, which Python
treats as numeric for `float(...)`). A `pydict` is the association list of
the dict in insertion order; `json.loads` produces dicts with distinct
keys, so key lookup is first-match. -/
inductive PyVal where
  | pynull
  | pybool (b : Bool)
  | pynum (q : ℚ)
  | pystr (s : String)
  | pylist (xs : List PyVal)
  | pydict (fs : List (String × PyVal))

/-- Value of a numeric string literal `intPart.fracPart`, written over
`List Char`. -/
def digitsVal (cs : List Char) : ℚ :=
  cs.foldl (fun a c => a * 10 + ((c.toNat - 48 : ℕ) : ℚ)) 0

/-- Unsigned decimal literal: `digits`, `digits.digits`, `digits.` or
`.digits` (with at least one digit), as accepted by Python `float`.
Exponent notation and `inf`/`nan` are outside the modelled fragment; no
claim exercises them. -/
def parseUnsignedDecimal (cs : List Char) : Option ℚ :=
  let intPart := cs.takeWhile (fun c => c.isDigit)
  let rest := cs.dropWhile (fun c => c.isDigit)
  match rest with
  | [] => if intPart.isEmpty then none else some (digitsVal intPart)
  | '.' :: frac =>
    if frac.all (fun c => c.isDigit) && !(intPart.isEmpty && frac.isEmpty) then
      some (digitsVal intPart + digitsVal frac / 10 ^ frac.length)
    else none
  | _ => none

/-- Strip leading and trailing whitespace, as Python `float(str)` does. -/
def stripWs (cs : List Char) : List Char :=
  ((cs.dropWhile Char.isWhitespace).reverse.dropWhile Char.isWhitespace).reverse

/-- Python `float(s)` for a string argument. -/
def pyFloatOfString (s : String) : Option ℚ :=
  match stripWs s.toList with
  | '-' :: rest => (parseUnsignedDecimal rest).map (fun q => -q)
  | '+' :: rest => parseUnsignedDecimal rest
  | cs => parseUnsignedDecimal cs

/-- Python `float(x)`: `none` models the `TypeError`/`ValueError` raised
when `x` is not convertible (`None`, lists, dicts, non-numeric strings). -/
def pyFloat : PyVal → Option ℚ
  | .pynum q => some q
  | .pybool b => some (if b then 1 else 0)
  | .pystr s => pyFloatOfString s
  | _ => none

/-- Python `x == k` for a string `k` (cross-type equality is `False`). -/
def pyEqStr (x : PyVal) (k : String) : Bool :=
  match x with
  | .pystr s => s == k
  | _ => false

/-- Substring test, modelling Python `k in s` for strings. -/
def strContains (s pat : String) : Bool :=
  s.toList.tails.any (fun t => pat.toList.isPrefixOf t)

/-- Python `k in p`: key membership for dicts, element membership for
lists, substring test for strings; `none` models the `TypeError` raised
for non-container values. -/
def pyContains (p : PyVal) (k : String) : Option Bool :=
  match p with
  | .pydict fs => some (fs.any (fun kv => kv.1 == k))
  | .pylist xs => some (xs.any (fun x => pyEqStr x k))
  | .pystr s => some (strContains s k)
  | _ => none

/-- Python `p[k]` for a string key `k`: dict lookup (`none` would be a
`KeyError`, never reached because the code guards with `"value" in p`);
`none` models the `TypeError` raised when `p` is a list, string or other
non-dict. -/
def pySubscript (p : PyVal) (k : String) : Option PyVal :=
  match p with
  | .pydict fs => fs.lookup k
  | _ => none

/-- Python `fs.get(k)` on a dict: the stored value, or `None` when the key
is missing. -/
def dictGetD (fs : List (String × PyVal)) (k : String) : PyVal :=
  (fs.lookup k).getD .pynull

/-- One entry of the `DEBUG` deque: the normal `json.dumps(show)` record
(topic plus the selected fields), the `[parse-error]` f-string, or any
other plain string (`on_connect` / `on_disconnect` / thread messages). -/
inductive DebugEntry where
  | record (topic : String) (fields : List (String × PyVal))
  | parseError (topic : String)
  | other (s : String)

/-- Whether a debug entry is the `[parse-error]` form. -/
def DebugEntry.isParseError : DebugEntry → Bool
  | .parseError _ => true
  | _ => false

/-- The global mutable state touched by `on_message`: `STORE` (the dict of
three bounded channel deques, oldest sample first) and `DEBUG` (the
bounded debug deque, newest entry first). -/
structure AppState where
  store : List (String × List ℚ)
  debug : List DebugEntry

/-- The initial `STORE` / `DEBUG` of `streamlit_app.py`: channels `temp`,
`hum`, `prox`, all empty. -/
def initState : AppState :=
  { store := [("temp", []), ("hum", []), ("prox", [])], debug := [] }

/-- Python `sensor in STORE`: key membership in the channel dict. -/
def storeMem (st : List (String × List ℚ)) (k : String) : Bool :=
  st.any (fun kv => kv.1 == k)

/-- Model of `STORE[k].append(v)` where each channel deque has
`maxlen = 200`. -/
def storeAppend (st : List (String × List ℚ)) (k : String) (v : ℚ) :
    List (String × List ℚ) :=
  st.map (fun kv => if kv.1 = k then (kv.1, dequeAppend 200 kv.2 v) else kv)

/-- Model of `DEBUG.appendleft e` with `maxlen = 400`. -/
def logEvent (dbg : List DebugEntry) (e : DebugEntry) : List DebugEntry :=
  dequeAppendLeft 400 dbg e

/-- The `except Exception` branch of `on_message`: log the `[parse-error]`
f-string. -/
def logParseError (st : AppState) (topic : String) : AppState :=
  { st with debug := logEvent st.debug (.parseError topic) }

/-- The keys selected for the debug record:
`("t", "type", "unit", "value", "v")`. -/
def logKeys : List String := ["t", "type", "unit", "value", "v"]

/-- The field part of `show = {"topic": msg.topic, **{k: p.get(k) for k in
("t","type","unit","value","v")}}`: each selected key mapped through
`p.get`, so a missing key appears with value `None`. -/
def showFields (fs : List (String × PyVal)) : List (String × PyVal) :=
  logKeys.map (fun k => (k, dictGetD fs k))

/-- Building `show` and logging it. `p.get(k)` raises `AttributeError`
when `p` is not a dict, which the surrounding `try/except` turns into a
`[parse-error]` entry. -/
def buildShowAndLog (st : AppState) (topic : String) (p : PyVal) : AppState :=
  match p with
  | .pydict fs =>
    { st with debug := logEvent st.debug (.record topic (showFields fs)) }
  | _ => logParseError st topic

/-- Python `topic.split("/")` for the single-character separator, written
over `List Char` so that it reduces definitionally. -/
def splitOnChar (c : Char) : List Char → List (List Char)
  | [] => [[]]
  | x :: xs =>
    let r := splitOnChar c xs
    if x = c then [] :: r
    else
      match r with
      | [] => [[x]]
      | h :: t => (x :: h) :: t

/-- Model of `msg.topic.split("/")[-1]`: the last `/`-separated segment (`split`
always returns a non-empty list, so the `[-1]` index never fails). -/
def lastSegment (topic : String) : String :=
  ⟨(splitOnChar '/' topic.toList).getLastD []⟩

/-- The callback `on_message(client, userdata, msg)` acting on the shared state, with
the message given as its topic and the result of decoding its payload
(`none` = the UTF-8 decode or `json.loads` raised). Evaluation order
follows the source: the short-circuit condition
`sensor in STORE and "value" in p`, then `float(p["value"])`, then the
`STORE` append, then the `show` record; an exception at any point skips
the remaining steps and logs a `[parse-error]` entry instead. -/
def on_message (st : AppState) (topic : String) (payload : Option PyVal) :
    AppState :=
  match payload with
  | none => logParseError st topic
  | some p =>
    let sensor := lastSegment topic
    match (if storeMem st.store sensor then pyContains p "value" else some false) with
    | none => logParseError st topic
    | some false => buildShowAndLog st topic p
    | some true =>
      match pySubscript p "value" with
      | none => logParseError st topic
      | some pv =>
        match pyFloat pv with
        | none => logParseError st topic
        | some q =>
          buildShowAndLog { st with store := storeAppend st.store sensor q }
            topic p

/-- The latest-value read of the dashboard:
`store[k][-1] if len(store[k]) else None` (the UI reads a lock-guarded
copy of `STORE`, so the copy is elided). -/
def latest (st : AppState) (k : String) : Option ℚ :=
  (st.store.lookup k).bind List.getLast?

/-- Whether an attempted `float(p["value"])` would succeed: vacuously true
when the key is missing. -/
def valueFieldOk (fs : List (String × PyVal)) : Bool :=
  match fs.lookup "value" with
  | some v => (pyFloat v).isSome
  | none => true

/-- The supervisor fields kept in `st.session_state`: `mqtt_running`
(unset and `None` both behave as `False` in the `if`, so a `Bool`
suffices), `mqtt_thread` and `mqtt_client` (handles, `none` before ever
set). Thread and client handles are abstract identifiers. -/
structure SupState where
  mqttRunning : Bool
  mqttThread : Option Nat
  mqttClient : Option Nat

/-- The guard of `start_mqtt`:
`session_state.get("mqtt_running") and session_state.get("mqtt_thread")
and session_state.mqtt_thread.is_alive()`, with liveness of a thread
handle given by the external oracle `alive` (a fact of the OS scheduler at
the moment of the call). -/
def startCond (s : SupState) (alive : Nat → Bool) : Bool :=
  s.mqttRunning &&
    (match s.mqttThread with
     | some t => alive t
     | none => false)

/-- Model of `start_mqtt()`: return immediately when the guard holds; otherwise
build a fresh client, spawn a fresh thread and record both. The returned
`Bool` is `true` exactly when a new thread was spawned. -/
def start_mqtt (s : SupState) (alive : Nat → Bool)
    (freshClient freshThread : Nat) : SupState × Bool :=
  if startCond s alive then (s, false)
  else
    ({ mqttRunning := true, mqttThread := some freshThread,
       mqttClient := some freshClient }, true)

/-- The body of the `try` in `stop_mqtt`: skip when
`session_state.get("mqtt_client")` is `None`; otherwise `loop_stop()` and
`disconnect()`, which may raise (the external outcome
`disconnectRaises`). -/
def stopAttempt (s : SupState) (disconnectRaises : Bool) : Except String Unit :=
  match s.mqttClient with
  | none => .ok ()
  | some _ => if disconnectRaises then .error "disconnect failed" else .ok ()

/-- Model of `stop_mqtt()`: the `try/except: pass` swallows any error of the body,
then `mqtt_running = False` is set unconditionally. The `Except` in the
result is what the caller observes. -/
def stop_mqtt (s : SupState) (disconnectRaises : Bool) :
    SupState × Except String Unit :=
  match stopAttempt s disconnectRaises with
  | .ok _ => ({ s with mqttRunning := false }, .ok ())
  | .error _ => ({ s with mqttRunning := false }, .ok ())

/-- Model of `stop_mqtt()` together with the global `DEBUG` deque it could
have written to: the body contains no logging call at all — the handler of
the `try` is `except Exception: pass`, not a `DEBUG.appendleft` — so the
debug deque passes through unchanged whatever the disconnect outcome,
while `mqtt_running = False` is still set and the caller sees a normal
return. -/
def stop_mqtt_full (s : SupState) (dbg : List DebugEntry)
    (disconnectRaises : Bool) :
    SupState × List DebugEntry × Except String Unit :=
  match stopAttempt s disconnectRaises with
  | .ok _ => ({ s with mqttRunning := false }, dbg, .ok ())
  | .error _ => ({ s with mqttRunning := false }, dbg, .ok ())

/-- Python `round(q, n)` idealised over rationals: scale by `10 ^ n`,
round half to even, scale back. -/
def roundHalfEven (q : ℚ) : ℤ :=
  if q - ⌊q⌋ < 1/2 then ⌊q⌋
  else if q - ⌊q⌋ > 1/2 then ⌊q⌋ + 1
  else if ⌊q⌋ % 2 = 0 then ⌊q⌋ else ⌊q⌋ + 1

/-- Python `round(q, n)` with `n` decimal digits. -/
def pyRound (q : ℚ) (n : ℕ) : ℚ := (roundHalfEven (q * 10 ^ n) : ℚ) / 10 ^ n

/-- Model of `_bounded_random_walk(value, target_low, target_high, step, jitter)`,
with the two `random.uniform` draws `d1`, `d2` passed in as inputs (the
theorems quantify over every outcome). -/
def boundedRandomWalk (value lo hi step jitter d1 d2 : ℚ) : ℚ :=
  let center := (lo + hi) / 2
  let drift := (center - value) * (5 / 100)
  let v := value + drift + d1 + d2
  max lo (min hi v)

/-- The dataclass `TemperatureSensor` with its defaults. -/
structure TemperatureSensor where
  value : ℚ := 24
  low : ℚ := 20
  high : ℚ := 30
  step : ℚ := 1/5
  jitter : ℚ := 1/20

/-- Model of `TemperatureSensor.read`: update `self.value` by the walk, return the
value rounded to 2 decimals. -/
def TemperatureSensor.read (s : TemperatureSensor) (d1 d2 : ℚ) :
    TemperatureSensor × ℚ :=
  let v := boundedRandomWalk s.value s.low s.high s.step s.jitter d1 d2
  ({ s with value := v }, pyRound v 2)

/-- A sequence of `read` calls on a temperature sensor, one draw pair per
call, returning the final sensor state. -/
def TemperatureSensor.readMany (s : TemperatureSensor) (ds : List (ℚ × ℚ)) :
    TemperatureSensor :=
  ds.foldl (fun st d => (st.read d.1 d.2).1) s

/-- The dataclass `HumiditySensor` with its defaults. -/
structure HumiditySensor where
  value : ℚ := 50
  low : ℚ := 35
  high : ℚ := 75
  step : ℚ := 3/10
  jitter : ℚ := 1/20

/-- Model of `HumiditySensor.read`: update `self.value` by the walk, return the
value rounded to 1 decimal. -/
def HumiditySensor.read (s : HumiditySensor) (d1 d2 : ℚ) :
    HumiditySensor × ℚ :=
  let v := boundedRandomWalk s.value s.low s.high s.step s.jitter d1 d2
  ({ s with value := v }, pyRound v 1)

/-- A sequence of `read` calls on a humidity sensor. -/
def HumiditySensor.readMany (s : HumiditySensor) (ds : List (ℚ × ℚ)) :
    HumiditySensor :=
  ds.foldl (fun st d => (st.read d.1 d.2).1) s

/-- Closed form of `dequeAppend`: append then drop the overflow. -/
lemma dequeAppend_eq {α : Type} (m : Nat) (xs : List α) (v : α) :
    dequeAppend m xs v = (xs ++ [v]).drop (xs.length + 1 - m) := by
  simp only [dequeAppend, List.length_append, List.length_cons,
    List.length_nil]
  split
  · rfl
  · have h : xs.length + 1 - m = 0 := by omega
    rw [h, List.drop_zero]

/-- The length of a bounded append is `min (n + 1) m`. -/
lemma dequeAppend_length {α : Type} (m : Nat) (xs : List α) (v : α) :
    (dequeAppend m xs v).length = min (xs.length + 1) m := by
  rw [dequeAppend_eq, List.length_drop, List.length_append]
  simp only [List.length_cons, List.length_nil]
  omega

/-- A bounded append with positive capacity always keeps the new value as
the last element. -/
lemma dequeAppend_getLast? {α : Type} (m : Nat) (xs : List α) (v : α)
    (hm : 0 < m) : (dequeAppend m xs v).getLast? = some v := by
  rw [dequeAppend_eq,
    List.drop_append_of_le_length (by omega : xs.length + 1 - m ≤ xs.length)]
  exact List.getLast?_concat _

/-- Folding bounded appends over a value sequence keeps exactly the most
recent `m` elements of `init ++ vs`. -/
lemma foldl_dequeAppend {α : Type} (m : Nat) :
    ∀ (vs init : List α), init.length ≤ m →
      List.foldl (dequeAppend m) init vs =
        (init ++ vs).drop (init.length + vs.length - m) := by
  intro vs
  induction vs with
  | nil =>
    intro init h
    have h0 : init.length + List.length ([] : List α) - m = 0 := by
      simp only [List.length_nil]; omega
    rw [List.foldl_nil, List.append_nil, h0, List.drop_zero]
  | cons v vs ih =>
    intro init h
    have hlen : (dequeAppend m init v).length ≤ m := by
      rw [dequeAppend_length]; omega
    rw [List.foldl_cons, ih _ hlen, dequeAppend_eq,
      ← List.drop_append_of_le_length
        (by simp only [List.length_append, List.length_cons, List.length_nil]
            omega : init.length + 1 - m ≤ (init ++ [v]).length),
      List.drop_drop]
    have hl : init ++ [v] ++ vs = init ++ v :: vs := by simp
    rw [hl]
    congr 1
    rw [List.length_drop, List.length_append]
    simp only [List.length_cons, List.length_nil]
    omega

/-- Closed form of `dequeAppendLeft`: prepend then keep the first `m`. -/
lemma dequeAppendLeft_eq {α : Type} (m : Nat) (xs : List α) (v : α)
    (h : xs.length ≤ m) : dequeAppendLeft m xs v = (v :: xs).take m := by
  simp only [dequeAppendLeft, List.length_cons]
  split
  · rfl
  · rw [List.take_of_length_le (by simp only [List.length_cons]; omega)]

/-- The length of a bounded prepend never exceeds the capacity. -/
lemma dequeAppendLeft_length_le {α : Type} (m : Nat) (xs : List α) (v : α)
    (h : xs.length ≤ m) : (dequeAppendLeft m xs v).length ≤ m := by
  rw [dequeAppendLeft_eq m xs v h, List.length_take]
  omega

/-- A bounded prepend with positive capacity puts the new value first. -/
lemma dequeAppendLeft_head? {α : Type} (m : Nat) (xs : List α) (v : α)
    (hm : 0 < m) : (dequeAppendLeft m xs v).head? = some v := by
  simp only [dequeAppendLeft, List.length_cons]
  split
  · cases m with
    | zero => omega
    | succ n => rw [List.take_succ_cons, List.head?_cons]
  · rw [List.head?_cons]


/-- Association lookup at a cons whose key matches. -/
lemma lookup_cons_self {β : Type} (a : String) (b : β)
    (l : List (String × β)) : List.lookup a ((a, b) :: l) = some b := by
  simp [List.lookup]

/-- Association lookup skips a cons whose key differs. -/
lemma lookup_cons_ne {β : Type} (a k : String) (b : β)
    (l : List (String × β)) (h : k ≠ a) :
    List.lookup k ((a, b) :: l) = List.lookup k l := by
  have hb : (k == a) = false := beq_eq_false_iff_ne.2 h
  simp [List.lookup, hb]

/-- Key membership by `any` agrees with `lookup` succeeding. -/
lemma any_key_eq_lookup_isSome {β : Type} (fs : List (String × β))
    (k : String) :
    fs.any (fun kv => kv.1 == k) = (fs.lookup k).isSome := by
  induction fs with
  | nil => rfl
  | cons a rest ih =>
    obtain ⟨a1, a2⟩ := a
    by_cases h : a1 = k
    · subst h
      rw [lookup_cons_self]
      simp
    · rw [lookup_cons_ne _ _ _ _ (Ne.symm h), List.any_cons, ← ih]
      have hb : (a1 == k) = false := beq_eq_false_iff_ne.2 h
      simp [hb]

/-- The append `STORE[k].append(v)` seen through `lookup`: the addressed channel gets
the bounded append, a missing key stays missing. -/
lemma lookup_storeAppend (st : List (String × List ℚ)) (k : String) (v : ℚ) :
    (storeAppend st k v).lookup k =
      (st.lookup k).map (fun buf => dequeAppend 200 buf v) := by
  induction st with
  | nil => rfl
  | cons a rest ih =>
    obtain ⟨a1, buf⟩ := a
    by_cases h : a1 = k
    · subst h
      show List.lookup a1 ((if a1 = a1 then (a1, dequeAppend 200 buf v)
        else (a1, buf)) :: storeAppend rest a1 v) = _
      rw [if_pos rfl, lookup_cons_self, lookup_cons_self]
      rfl
    · show List.lookup k ((if a1 = k then (a1, dequeAppend 200 buf v)
        else (a1, buf)) :: storeAppend rest k v) = _
      rw [if_neg h, lookup_cons_ne _ _ _ _ (Ne.symm h),
        lookup_cons_ne _ _ _ _ (Ne.symm h), ih]

/-- The append `STORE[k].append(v)` leaves every other channel unchanged. -/
lemma lookup_storeAppend_ne (st : List (String × List ℚ)) (k k' : String)
    (v : ℚ) (h : k' ≠ k) :
    (storeAppend st k v).lookup k' = st.lookup k' := by
  induction st with
  | nil => rfl
  | cons a rest ih =>
    obtain ⟨a1, buf⟩ := a
    by_cases h1 : a1 = k
    · subst h1
      show List.lookup k' ((if a1 = a1 then (a1, dequeAppend 200 buf v)
        else (a1, buf)) :: storeAppend rest a1 v) = _
      rw [if_pos rfl, lookup_cons_ne _ _ _ _ h, lookup_cons_ne _ _ _ _ h, ih]
    · show List.lookup k' ((if a1 = k then (a1, dequeAppend 200 buf v)
        else (a1, buf)) :: storeAppend rest k v) = _
      rw [if_neg h1]
      by_cases h2 : k' = a1
      · subst h2
        rw [lookup_cons_self, lookup_cons_self]
      · rw [lookup_cons_ne _ _ _ _ h2, lookup_cons_ne _ _ _ _ h2, ih]

/-- Decoding failure: the handler logs `[parse-error]`. -/
lemma on_message_none (st : AppState) (topic : String) :
    on_message st topic none = logParseError st topic := rfl

/-- When the last topic segment is not a known channel, the short-circuit
`and` skips `"value" in p` and the handler goes straight to the `show`
record. -/
lemma on_message_not_mem (st : AppState) (topic : String) (p : PyVal)
    (hm : storeMem st.store (lastSegment topic) = false) :
    on_message st topic (some p) = buildShowAndLog st topic p := by
  simp [on_message, hm]

/-- A dict payload without a `value` key never takes the append branch. -/
lemma on_message_dict_no_value (st : AppState) (topic : String)
    (fs : List (String × PyVal)) (hnv : fs.lookup "value" = none) :
    on_message st topic (some (.pydict fs)) =
      buildShowAndLog st topic (.pydict fs) := by
  have hany : fs.any (fun kv => kv.1 == "value") = false := by
    rw [any_key_eq_lookup_isSome, hnv]; rfl
  cases hm : storeMem st.store (lastSegment topic)
  · simp [on_message, hm]
  · simp [on_message, hm, pyContains, hany]

/-- A dict payload with a `value` key on a known channel: `float` the
value, append on success, `[parse-error]` on failure. -/
lemma on_message_dict_value (st : AppState) (topic : String)
    (fs : List (String × PyVal)) (v : PyVal)
    (hm : storeMem st.store (lastSegment topic) = true)
    (hv : fs.lookup "value" = some v) :
    on_message st topic (some (.pydict fs)) =
      match pyFloat v with
      | none => logParseError st topic
      | some q =>
        buildShowAndLog
          { st with store := storeAppend st.store (lastSegment topic) q }
          topic (.pydict fs) := by
  have hany : fs.any (fun kv => kv.1 == "value") = true := by
    rw [any_key_eq_lookup_isSome, hv]; rfl
  simp [on_message, hm, pyContains, hany, pySubscript, hv]

/-- Building the `show` record never touches the channel buffers. -/
lemma buildShowAndLog_store (st : AppState) (topic : String) (p : PyVal) :
    (buildShowAndLog st topic p).store = st.store := by
  cases p <;> rfl

/-- On a dict the `show` record is logged with the selected fields. -/
lemma buildShowAndLog_dict (st : AppState) (topic : String)
    (fs : List (String × PyVal)) :
    buildShowAndLog st topic (.pydict fs) =
      { st with debug := logEvent st.debug (.record topic (showFields fs)) } :=
  rfl

/-- Building the `show` record appends exactly one debug entry. -/
lemma buildShowAndLog_debug (st : AppState) (topic : String) (p : PyVal) :
    ∃ e, (buildShowAndLog st topic p).debug = logEvent st.debug e := by
  cases p
  case pydict fs => exact ⟨.record topic (showFields fs), rfl⟩
  all_goals exact ⟨.parseError topic, rfl⟩

/-- Every path through the handler appends exactly one debug entry to the
front of the debug deque. -/
lemma on_message_debug_push (st : AppState) (topic : String)
    (payload : Option PyVal) :
    ∃ e, (on_message st topic payload).debug = logEvent st.debug e := by
  cases payload with
  | none => exact ⟨.parseError topic, rfl⟩
  | some p =>
    show ∃ e,
      (match
          (if storeMem st.store (lastSegment topic) then pyContains p "value"
           else some false) with
        | none => logParseError st topic
        | some false => buildShowAndLog st topic p
        | some true =>
          match pySubscript p "value" with
          | none => logParseError st topic
          | some pv =>
            match pyFloat pv with
            | none => logParseError st topic
            | some q =>
              buildShowAndLog
                { st with
                    store := storeAppend st.store (lastSegment topic) q }
                topic p).debug = logEvent st.debug e
    split
    · exact ⟨.parseError topic, rfl⟩
    · exact buildShowAndLog_debug st topic p
    · split
      · exact ⟨.parseError topic, rfl⟩
      · split
        · exact ⟨.parseError topic, rfl⟩
        · exact buildShowAndLog_debug _ topic p

/-- Round-half-even never goes below an integer lower bound. -/
lemma le_roundHalfEven (a : ℤ) (y : ℚ) (h : (a : ℚ) ≤ y) :
    a ≤ roundHalfEven y := by
  have hf : a ≤ ⌊y⌋ := Int.le_floor.2 h
  unfold roundHalfEven
  split
  · exact hf
  split
  · omega
  split
  · exact hf
  · omega

/-- Round-half-even never goes above an integer upper bound. -/
lemma roundHalfEven_le (b : ℤ) (y : ℚ) (h : y ≤ (b : ℚ)) :
    roundHalfEven y ≤ b := by
  have hfb : ⌊y⌋ ≤ b := by
    have hm := Int.floor_mono h
    rwa [Int.floor_intCast] at hm
  by_cases heq : ⌊y⌋ = b
  · have hyb : y = (b : ℚ) :=
      le_antisymm h (by rw [← heq]; exact Int.floor_le y)
    unfold roundHalfEven
    rw [hyb, Int.floor_intCast]
    norm_num
  · have hlt : ⌊y⌋ + 1 ≤ b := by omega
    unfold roundHalfEven
    split
    · omega
    split
    · omega
    split
    · omega
    · omega

/-- Python `round(x, n)` stays inside an interval whose ends are multiples of the
rounding quantum `10 ^ (-n)`. -/
lemma pyRound_mem (n : ℕ) (a b : ℤ) (x : ℚ)
    (ha : (a : ℚ) / 10 ^ n ≤ x) (hb : x ≤ (b : ℚ) / 10 ^ n) :
    (a : ℚ) / 10 ^ n ≤ pyRound x n ∧ pyRound x n ≤ (b : ℚ) / 10 ^ n := by
  have hpow : (0 : ℚ) < 10 ^ n := by positivity
  have ha2 : (a : ℚ) ≤ x * 10 ^ n := by
    rw [div_le_iff₀ hpow] at ha; exact ha
  have hb2 : x * 10 ^ n ≤ (b : ℚ) := by
    rw [le_div_iff₀ hpow] at hb; exact hb
  have h1 := le_roundHalfEven a (x * 10 ^ n) ha2
  have h2 := roundHalfEven_le b (x * 10 ^ n) hb2
  constructor
  · rw [pyRound]
    gcongr
  · rw [pyRound]
    gcongr

/-- The clamp at the end of `_bounded_random_walk` keeps the stored value
inside `[target_low, target_high]`, whatever the draws were. -/
lemma boundedRandomWalk_mem (value lo hi step jitter d1 d2 : ℚ)
    (h : lo ≤ hi) :
    lo ≤ boundedRandomWalk value lo hi step jitter d1 d2
    ∧ boundedRandomWalk value lo hi step jitter d1 d2 ≤ hi := by
  unfold boundedRandomWalk
  exact ⟨le_max_left _ _, max_le h (min_le_left _ _)⟩

/-- Reading preserves the configured bounds of a temperature sensor. -/
lemma temp_read_bounds (s : TemperatureSensor) (d1 d2 : ℚ) :
    (s.read d1 d2).1.low = s.low ∧ (s.read d1 d2).1.high = s.high :=
  ⟨rfl, rfl⟩

/-- After a sequence of reads whose start value was already in range, the
stored value of a temperature sensor stays in range. -/
lemma temp_readMany_value (s : TemperatureSensor) (h : s.low ≤ s.high)
    (hv : s.low ≤ s.value ∧ s.value ≤ s.high) (ds : List (ℚ × ℚ)) :
    s.low ≤ (s.readMany ds).value ∧ (s.readMany ds).value ≤ s.high := by
  induction ds generalizing s with
  | nil => exact hv
  | cons d ds ih =>
    have hw := boundedRandomWalk_mem s.value s.low s.high s.step s.jitter
      d.1 d.2 h
    exact ih (s.read d.1 d.2).1 h hw

/-- Reading preserves the configured bounds of a humidity sensor. -/
lemma hum_read_bounds (s : HumiditySensor) (d1 d2 : ℚ) :
    (s.read d1 d2).1.low = s.low ∧ (s.read d1 d2).1.high = s.high :=
  ⟨rfl, rfl⟩

/-- After a sequence of reads whose start value was already in range, the
stored value of a humidity sensor stays in range. -/
lemma hum_readMany_value (s : HumiditySensor) (h : s.low ≤ s.high)
    (hv : s.low ≤ s.value ∧ s.value ≤ s.high) (ds : List (ℚ × ℚ)) :
    s.low ≤ (s.readMany ds).value ∧ (s.readMany ds).value ≤ s.high := by
  induction ds generalizing s with
  | nil => exact hv
  | cons d ds ih =>
    have hw := boundedRandomWalk_mem s.value s.low s.high s.step s.jitter
      d.1 d.2 h
    exact ih (s.read d.1 d.2).1 h hw

/-- Folding `log_event` calls keeps the debug deque within capacity. -/
lemma foldl_logEvent_length_le (es : List DebugEntry) :
    ∀ dbg : List DebugEntry, dbg.length ≤ 400 →
      (List.foldl logEvent dbg es).length ≤ 400 := by
  induction es with
  | nil => intro dbg h; exact h
  | cons e es ih =>
    intro dbg h
    exact ih _ (dequeAppendLeft_length_le 400 dbg e h)

/-- C1: for every channel buffer of capacity `C` and every sequence of
`N > C` appended values, after all appends the buffer holds exactly the
last `C` appended values in arrival order, and its length never exceeds
`C` at any intermediate point. -/
theorem c1_channelBuffer_keeps_last_capacity (C : Nat) (vs : List ℚ)
    (h : C < vs.length) :
    List.foldl (dequeAppend C) [] vs = vs.drop (vs.length - C)
    ∧ (List.foldl (dequeAppend C) [] vs).length = C
    ∧ ∀ k : Nat, (List.foldl (dequeAppend C) [] (vs.take k)).length ≤ C := by
  have hfold : ∀ ws : List ℚ, List.foldl (dequeAppend C) [] ws =
      ws.drop (ws.length - C) := by
    intro ws
    have := foldl_dequeAppend C ws [] (by simp)
    simpa using this
  refine ⟨hfold vs, ?_, ?_⟩
  · rw [hfold vs, List.length_drop]
    omega
  · intro k
    rw [hfold (vs.take k), List.length_drop]
    omega

/-- Witness for C1 at `C = 2`, values `[1, 2, 3]`: the buffer ends as
`[2, 3]`. -/
theorem c1_witness :
    List.foldl (dequeAppend 2) [] [(1 : ℚ), 2, 3] = [2, 3] := by
  have h := (c1_channelBuffer_keeps_last_capacity 2 [(1 : ℚ), 2, 3]
    (by norm_num)).1
  simpa using h

/-- C6: the debug log stays within its capacity of 400 over any sequence
of `log_event` calls, each new entry lands at position 0, and when the
ring is full the evicted entry is the last one. -/
theorem c6_debugLog_capacity_front_insert (es : List DebugEntry)
    (dbg : List DebugEntry) (e : DebugEntry) (h : dbg.length ≤ 400) :
    (List.foldl logEvent [] es).length ≤ 400
    ∧ (logEvent dbg e).head? = some e
    ∧ (dbg.length = 400 → logEvent dbg e = e :: dbg.dropLast) := by
  refine ⟨foldl_logEvent_length_le es [] (by simp), ?_, ?_⟩
  · exact dequeAppendLeft_head? 400 dbg e (by norm_num)
  · intro h400
    rw [logEvent, dequeAppendLeft_eq 400 dbg e h,
      show (400 : ℕ) = 399 + 1 from rfl, List.take_succ_cons,
      List.dropLast_eq_take, h400]

/-- Witness for C6: logging one entry into an empty debug ring puts it at
position 0. -/
theorem c6_witness :
    (logEvent [] (.other "boot")).head? = some (.other "boot") :=
  (c6_debugLog_capacity_front_insert [] [] (.other "boot")
    (by norm_num)).2.1

/-- C2: a message whose topic ends in a known channel name and whose
payload decodes to a record with a numeric `value` field appends that
value to the channel, and the latest-value read of that channel then
returns exactly that value. -/
theorem c2_known_channel_numeric_value (st : AppState) (topic : String)
    (fs : List (String × PyVal)) (q : ℚ)
    (hmem : storeMem st.store (lastSegment topic) = true)
    (hval : fs.lookup "value" = some (.pynum q)) :
    (on_message st topic (some (.pydict fs))).store =
      storeAppend st.store (lastSegment topic) q
    ∧ latest (on_message st topic (some (.pydict fs))) (lastSegment topic) =
      some q := by
  have hrw := on_message_dict_value st topic fs (.pynum q) hmem hval
  have hstore : (on_message st topic (some (.pydict fs))).store =
      storeAppend st.store (lastSegment topic) q := by
    rw [hrw]
    exact buildShowAndLog_store _ topic _
  refine ⟨hstore, ?_⟩
  obtain ⟨buf, hbuf⟩ : ∃ b, st.store.lookup (lastSegment topic) = some b := by
    rw [storeMem, any_key_eq_lookup_isSome] at hmem
    exact Option.isSome_iff_exists.1 hmem
  rw [latest, hstore, lookup_storeAppend, hbuf]
  simpa using dequeAppend_getLast? 200 buf q (by norm_num)

/-- Witness for C2: topic `base/temp`, payload `{"value": 23.5}` makes the
latest temperature 23.5. -/
theorem c2_witness :
    latest (on_message initState "base/temp"
      (some (.pydict [("value", .pynum 23.5)]))) "temp" = some 23.5 := by
  have h := (c2_known_channel_numeric_value initState "base/temp"
    [("value", .pynum 23.5)] 23.5 (by decide) rfl).2
  rwa [show lastSegment "base/temp" = "temp" from by decide] at h

/-- C3: a message whose topic ends in an unknown channel name leaves every
channel buffer unchanged and still adds one entry to the debug log. -/
theorem c3_unknown_channel_noop_still_logged (st : AppState)
    (topic : String) (payload : Option PyVal)
    (hmem : storeMem st.store (lastSegment topic) = false) :
    (on_message st topic payload).store = st.store
    ∧ ∃ e, (on_message st topic payload).debug = logEvent st.debug e := by
  refine ⟨?_, on_message_debug_push st topic payload⟩
  cases payload with
  | none => rfl
  | some p =>
    rw [on_message_not_mem st topic p hmem]
    exact buildShowAndLog_store st topic p

/-- Witness for C3: topic `base/unknown`, payload `{"value": 23.5}` leaves
the buffers of the initial state unchanged and logs one entry. -/
theorem c3_witness :
    (on_message initState "base/unknown"
      (some (.pydict [("value", .pynum 23.5)]))).store = initState.store
    ∧ ∃ e, (on_message initState "base/unknown"
        (some (.pydict [("value", .pynum 23.5)]))).debug =
          logEvent initState.debug e :=
  c3_unknown_channel_noop_still_logged initState "base/unknown"
    (some (.pydict [("value", .pynum 23.5)])) (by decide)

/-- Counterexample to C4: on topic `base/temp` with payload
`{"notvalue": 1}` the single debug entry is the normal `show` record
(with null placeholders), not a `[parse-error]` entry — the payload is
valid JSON and the missing `value` key merely makes the `if` condition
false, so no exception is raised. -/
theorem c4_counterexample :
    (on_message initState "base/temp"
      (some (.pydict [("notvalue", .pynum 1)]))).store = initState.store
    ∧ (on_message initState "base/temp"
        (some (.pydict [("notvalue", .pynum 1)]))).debug =
        [DebugEntry.record "base/temp"
          [("t", .pynull), ("type", .pynull), ("unit", .pynull),
           ("value", .pynull), ("v", .pynull)]]
    ∧ DebugEntry.isParseError
        (.record "base/temp"
          [("t", .pynull), ("type", .pynull), ("unit", .pynull),
           ("value", .pynull), ("v", .pynull)]) = false :=
  ⟨rfl, rfl, rfl⟩

/-- C4 (amended): a decoded record without a `value` field mutates no
channel buffer and produces exactly one debug entry, and that entry is the
normal redacted field view (with null placeholders), not a parse error. -/
theorem c4_missing_value_logs_normal_record (st : AppState)
    (topic : String) (fs : List (String × PyVal))
    (hnv : fs.lookup "value" = none) :
    (on_message st topic (some (.pydict fs))).store = st.store
    ∧ (on_message st topic (some (.pydict fs))).debug =
        logEvent st.debug (.record topic (showFields fs))
    ∧ DebugEntry.isParseError (.record topic (showFields fs)) = false := by
  rw [on_message_dict_no_value st topic fs hnv, buildShowAndLog_dict]
  exact ⟨rfl, rfl, rfl⟩

/-- Witness for the amended C4 at the concrete input of the spec. -/
theorem c4_witness :
    (on_message initState "base/temp"
      (some (.pydict [("notvalue", .pynum 1)]))).debug =
      logEvent initState.debug
        (.record "base/temp" (showFields [("notvalue", .pynum 1)])) :=
  (c4_missing_value_logs_normal_record initState "base/temp"
    [("notvalue", .pynum 1)] rfl).2.1

/-- C5: the handler is total — it returns a well-defined successor state
for every topic and payload, appending exactly one debug entry; a decode
failure, and a non-convertible `value` on a known channel, are each
recorded as a `[parse-error]` entry before the handler returns. -/
theorem c5_handler_never_propagates (st : AppState) (topic : String)
    (payload : Option PyVal) :
    (∃ e, (on_message st topic payload).debug = logEvent st.debug e)
    ∧ (payload = none →
        (on_message st topic payload).debug =
          logEvent st.debug (.parseError topic))
    ∧ (∀ fs v, payload = some (.pydict fs) →
        storeMem st.store (lastSegment topic) = true →
        fs.lookup "value" = some v → pyFloat v = none →
        (on_message st topic payload).debug =
          logEvent st.debug (.parseError topic)) := by
  refine ⟨on_message_debug_push st topic payload, ?_, ?_⟩
  · rintro rfl
    rfl
  · rintro fs v rfl hm hv hf
    rw [on_message_dict_value st topic fs v hm hv, hf]
    rfl

/-- Witness for C5: an undecodable payload on topic `base/temp` is logged
as a `[parse-error]` entry. -/
theorem c5_witness :
    (on_message initState "base/temp" none).debug =
      logEvent initState.debug (.parseError "base/temp") :=
  (c5_handler_never_propagates initState "base/temp" none).2.1 rfl

/-- Counterexample to C9: for the successfully processed message on
`base/temp` with payload `{"value": 23.5}`, the logged record carries the
absent fields `t`, `type`, `unit`, `v` with an explicit null placeholder
(`p.get(k)` returns `None` for a missing key), instead of omitting them. -/
theorem c9_counterexample :
    (on_message initState "base/temp"
      (some (.pydict [("value", .pynum 23.5)]))).debug =
      [DebugEntry.record "base/temp"
        [("t", .pynull), ("type", .pynull), ("unit", .pynull),
         ("value", .pynum 23.5), ("v", .pynull)]]
    ∧ (showFields [("value", .pynum 23.5)]).lookup "t" = some .pynull :=
  ⟨rfl, rfl⟩

/-- C9 (amended): for every decoded record that raises no exception, the
debug entry is the `show` record containing the topic and each of the
selected keys `t`, `type`, `unit`, `value`, `v`: the payload value passed
through unmodified when the key is present, and a null placeholder when
it is absent. -/
theorem c9_record_fields_null_placeholders (st : AppState) (topic : String)
    (fs : List (String × PyVal)) (hok : valueFieldOk fs = true) :
    (on_message st topic (some (.pydict fs))).debug =
      logEvent st.debug (.record topic (showFields fs))
    ∧ ∀ k, k ∈ logKeys →
        (showFields fs).lookup k = some ((fs.lookup k).getD .pynull) := by
  constructor
  · cases hv : fs.lookup "value" with
    | none =>
      rw [on_message_dict_no_value st topic fs hv, buildShowAndLog_dict]
    | some v =>
      cases hm : storeMem st.store (lastSegment topic) with
      | false =>
        rw [on_message_not_mem st topic _ hm, buildShowAndLog_dict]
      | true =>
        obtain ⟨q, hq⟩ : ∃ q, pyFloat v = some q := by
          rw [valueFieldOk, hv] at hok
          exact Option.isSome_iff_exists.1 hok
        rw [on_message_dict_value st topic fs v hm hv, hq]
        rfl
  · intro k hk
    fin_cases hk <;> rfl

/-- Witness for the amended C9 at the message of the spec example. -/
theorem c9_witness :
    (on_message initState "base/temp"
      (some (.pydict [("value", .pynum 23.5)]))).debug =
      logEvent initState.debug
        (.record "base/temp" (showFields [("value", .pynum 23.5)])) :=
  (c9_record_fields_null_placeholders initState "base/temp"
    [("value", .pynum 23.5)] rfl).1

/-- C7: `start` is idempotent — with a live recorded thread it is a no-op,
and two starts in a row spawn at most one thread (the second call never
spawns while the first thread is alive). -/
theorem c7_start_idempotent_single_thread (s : SupState)
    (alive : Nat → Bool) (c1 t1 c2 t2 : Nat) :
    (∀ t, s.mqttRunning = true → s.mqttThread = some t → alive t = true →
      start_mqtt s alive c1 t1 = (s, false))
    ∧ (alive t1 = true →
      start_mqtt (start_mqtt s alive c1 t1).1 alive c2 t2 =
        ((start_mqtt s alive c1 t1).1, false)) := by
  constructor
  · intro t h1 h2 h3
    have hc : startCond s alive = true := by
      simp [startCond, h1, h2, h3]
    simp [start_mqtt, hc]
  · intro ha
    cases hc : startCond s alive with
    | true => simp [start_mqtt, hc]
    | false =>
      have h1 : start_mqtt s alive c1 t1 =
          ({ mqttRunning := true, mqttThread := some t1,
             mqttClient := some c1 }, true) := by
        simp [start_mqtt, hc]
      rw [h1]
      simp [start_mqtt, startCond, ha]

/-- Witness for C7: starting twice from the never-started state spawns a
thread only the first time. -/
theorem c7_witness :
    start_mqtt (start_mqtt ⟨false, none, none⟩ (fun _ => true) 0 1).1
      (fun _ => true) 2 3 =
      ((start_mqtt ⟨false, none, none⟩ (fun _ => true) 0 1).1, false) :=
  (c7_start_idempotent_single_thread ⟨false, none, none⟩ (fun _ => true)
    0 1 2 3).2 rfl

/-- Counterexample to C8: from a started state with a live client, when
the underlying `disconnect()` raises, the error is swallowed (the caller
sees a normal return) and the state ends stopped — but the debug log is
left exactly as it was: no entry is ever logged, because the handler is
`except Exception: pass`. The claim's "swallowed and logged" is false in
its logging half. -/
theorem c8_counterexample :
    (stop_mqtt_full ⟨true, some 1, some 0⟩ [] true).2.2 = .ok ()
    ∧ (stop_mqtt_full ⟨true, some 1, some 0⟩ [] true).1.mqttRunning = false
    ∧ (stop_mqtt_full ⟨true, some 1, some 0⟩ [] true).2.1 = [] :=
  ⟨rfl, rfl, rfl⟩

/-- C8 (amended): `stop` is idempotent and total — on every state
(including the never-started one) and every outcome of the underlying
disconnect call it raises nothing to the caller, leaves
`mqtt_running = False`, and a second `stop` changes nothing; any error
raised by the disconnect call is swallowed silently, NOT logged: the
debug deque is unchanged by the call. -/
theorem c8_stop_swallows_without_logging (s : SupState)
    (dbg : List DebugEntry) (r r2 : Bool) :
    stop_mqtt_full s dbg r = ({ s with mqttRunning := false }, dbg, .ok ())
    ∧ (stop_mqtt_full s dbg r).1.mqttRunning = false
    ∧ (stop_mqtt_full s dbg r).2.1 = dbg
    ∧ stop_mqtt_full (stop_mqtt_full s dbg r).1 dbg r2 =
        ((stop_mqtt_full s dbg r).1, dbg, .ok ()) := by
  have key : ∀ (u : SupState) (d : List DebugEntry) (b : Bool),
      stop_mqtt_full u d b =
        ({ u with mqttRunning := false }, d, .ok ()) := by
    intro u d b
    rw [stop_mqtt_full]
    cases hu : stopAttempt u b <;> rfl
  refine ⟨key s dbg r, ?_, ?_, ?_⟩
  · rw [key s dbg r]
  · rw [key s dbg r]
  · rw [key s dbg r, key]

/-- Rounding to 2 decimals keeps a clamped temperature reading inside
bounds that are integer multiples of `1/100`. -/
lemma temp_read_rounded_mem (s : TemperatureSensor) (d1 d2 : ℚ)
    (h : s.low ≤ s.high) (a b : ℤ) (hla : s.low = (a : ℚ) / 100)
    (hhb : s.high = (b : ℚ) / 100) :
    s.low ≤ (s.read d1 d2).2 ∧ (s.read d1 d2).2 ≤ s.high := by
  have hw := boundedRandomWalk_mem s.value s.low s.high s.step s.jitter
    d1 d2 h
  have hpow : ((10 : ℚ) ^ (2 : ℕ)) = 100 := by norm_num
  have ha2 : (a : ℚ) / 10 ^ (2 : ℕ) ≤
      boundedRandomWalk s.value s.low s.high s.step s.jitter d1 d2 := by
    rw [hpow, ← hla]; exact hw.1
  have hb2 : boundedRandomWalk s.value s.low s.high s.step s.jitter d1 d2 ≤
      (b : ℚ) / 10 ^ (2 : ℕ) := by
    rw [hpow, ← hhb]; exact hw.2
  have hr := pyRound_mem 2 a b _ ha2 hb2
  constructor
  · show s.low ≤
      pyRound (boundedRandomWalk s.value s.low s.high s.step s.jitter d1 d2) 2
    calc s.low = (a : ℚ) / 10 ^ (2 : ℕ) := by rw [hla, hpow]
      _ ≤ _ := hr.1
  · show
      pyRound (boundedRandomWalk s.value s.low s.high s.step s.jitter d1 d2) 2
        ≤ s.high
    calc pyRound
          (boundedRandomWalk s.value s.low s.high s.step s.jitter d1 d2) 2
        ≤ (b : ℚ) / 10 ^ (2 : ℕ) := hr.2
      _ = s.high := by rw [hhb, hpow]

/-- Rounding to 1 decimal keeps a clamped humidity reading inside bounds
that are integer multiples of `1/10`. -/
lemma hum_read_rounded_mem (s : HumiditySensor) (d1 d2 : ℚ)
    (h : s.low ≤ s.high) (a b : ℤ) (hla : s.low = (a : ℚ) / 10)
    (hhb : s.high = (b : ℚ) / 10) :
    s.low ≤ (s.read d1 d2).2 ∧ (s.read d1 d2).2 ≤ s.high := by
  have hw := boundedRandomWalk_mem s.value s.low s.high s.step s.jitter
    d1 d2 h
  have hpow : ((10 : ℚ) ^ (1 : ℕ)) = 10 := by norm_num
  have ha2 : (a : ℚ) / 10 ^ (1 : ℕ) ≤
      boundedRandomWalk s.value s.low s.high s.step s.jitter d1 d2 := by
    rw [hpow, ← hla]; exact hw.1
  have hb2 : boundedRandomWalk s.value s.low s.high s.step s.jitter d1 d2 ≤
      (b : ℚ) / 10 ^ (1 : ℕ) := by
    rw [hpow, ← hhb]; exact hw.2
  have hr := pyRound_mem 1 a b _ ha2 hb2
  constructor
  · show s.low ≤
      pyRound (boundedRandomWalk s.value s.low s.high s.step s.jitter d1 d2) 1
    calc s.low = (a : ℚ) / 10 ^ (1 : ℕ) := by rw [hla, hpow]
      _ ≤ _ := hr.1
  · show
      pyRound (boundedRandomWalk s.value s.low s.high s.step s.jitter d1 d2) 1
        ≤ s.high
    calc pyRound
          (boundedRandomWalk s.value s.low s.high s.step s.jitter d1 d2) 1
        ≤ (b : ℚ) / 10 ^ (1 : ℕ) := hr.2
      _ = s.high := by rw [hhb, hpow]

/-- Counterexample to C10: a temperature sensor with `low = 20.004`
(allowed by the claim, which only requires `low ≤ high`) whose walk clamps
to the lower bound returns `round(20.004, 2) = 20.0 < low`: the value
returned by `read` is NOT always within `[low, high]`, because the
rounding happens after the clamp. -/
theorem c10_counterexample :
    ((20.004 : ℚ) ≤ 30)
    ∧ (TemperatureSensor.read
        { value := 10, low := 20.004, high := 30, step := 1/5,
          jitter := 1/20 } 0 0).2 < (20.004 : ℚ) := by
  constructor
  · norm_num
  · have hv : boundedRandomWalk 10 20.004 30 (1/5) (1/20) 0 0 = 20.004 := by
      unfold boundedRandomWalk
      norm_num [max_def, min_def]
    show pyRound (boundedRandomWalk 10 20.004 30 (1/5) (1/20) 0 0) 2 <
      (20.004 : ℚ)
    rw [hv]
    have hr : pyRound 20.004 2 = 20 := by
      unfold pyRound roundHalfEven
      norm_num [Int.floor_eq_iff]
    rw [hr]
    norm_num

/-- C10 (amended): for both sensor kinds with `low ≤ high`, the stored
internal value lies in `[low, high]` after every non-empty sequence of
reads, whatever the random draws; the value returned by `read` is the
rounded stored value and also lies in `[low, high]` whenever `low` and
`high` are integer multiples of the rounding quantum (`1/100` for
temperature, `1/10` for humidity — the dataclass defaults qualify). -/
theorem c10_sensor_values_stay_in_bounds :
    (∀ (s : TemperatureSensor) (d : ℚ × ℚ) (ds : List (ℚ × ℚ)),
      s.low ≤ s.high →
      (s.low ≤ (s.readMany (d :: ds)).value
        ∧ (s.readMany (d :: ds)).value ≤ s.high)
      ∧ (∀ a b : ℤ, s.low = (a : ℚ) / 100 → s.high = (b : ℚ) / 100 →
          s.low ≤ (s.read d.1 d.2).2 ∧ (s.read d.1 d.2).2 ≤ s.high))
    ∧ (∀ (s : HumiditySensor) (d : ℚ × ℚ) (ds : List (ℚ × ℚ)),
      s.low ≤ s.high →
      (s.low ≤ (s.readMany (d :: ds)).value
        ∧ (s.readMany (d :: ds)).value ≤ s.high)
      ∧ (∀ a b : ℤ, s.low = (a : ℚ) / 10 → s.high = (b : ℚ) / 10 →
          s.low ≤ (s.read d.1 d.2).2 ∧ (s.read d.1 d.2).2 ≤ s.high)) := by
  constructor
  · intro s d ds h
    constructor
    · have hw := boundedRandomWalk_mem s.value s.low s.high s.step s.jitter
        d.1 d.2 h
      exact temp_readMany_value (s.read d.1 d.2).1 h hw ds
    · intro a b hla hhb
      exact temp_read_rounded_mem s d.1 d.2 h a b hla hhb
  · intro s d ds h
    constructor
    · have hw := boundedRandomWalk_mem s.value s.low s.high s.step s.jitter
        d.1 d.2 h
      exact hum_readMany_value (s.read d.1 d.2).1 h hw ds
    · intro a b hla hhb
      exact hum_read_rounded_mem s d.1 d.2 h a b hla hhb

/-- Witness for the amended C10 on the default temperature sensor after
one read with zero draws. -/
theorem c10_witness :
    (20 : ℚ) ≤ (TemperatureSensor.readMany
      { value := 24, low := 20, high := 30, step := 1/5, jitter := 1/20 }
      [(0, 0)]).value :=
  ((c10_sensor_values_stay_in_bounds.1
    { value := 24, low := 20, high := 30, step := 1/5, jitter := 1/20 }
    (0, 0) [] (by norm_num)).1).1
